import Mathlib

set_option maxHeartbeats 1000000

/-!
Verification model of the `HTMLText` display object
(`src/index.ts`, with the older revision `src/index.js` modelled separately
where the two revisions differ).

The embedding is a shallow one: the mutable class instance becomes a record
`HTMLTextState`, every method becomes a state-transformer, and quantities the
browser supplies (DOM bounding-box measurements, the result of `trimCanvas`)
become explicit parameters.  Machine numbers are modelled as `ℚ` (JavaScript
arithmetic on the values involved here is exact for the operations performed),
`Math.ceil` as `Int.ceil`, and the regular-expression based sanitisation as
recursion over `List Char`.
-/

namespace HTMLTextModel

/-! ### Sanitisation (`HTMLText.sanitiseText`)

The source performs three global, case-insensitive, literal replacements in
sequence:

  text.replace(br-regex, "<br/>").replace(hr-regex, "<hr/>").replace(nbsp-regex, "&#160;")

A global literal replace scans left to right, replacing each non-overlapping
occurrence and resuming after it; `/i` compares ASCII letters without case.
-/

/-- The first `n` characters of `s`, lower-cased (the case-insensitive window
a literal pattern of length `n` is compared against). -/
def lchars (s : List Char) (n : ℕ) : List Char :=
  (s.take n).map Char.toLower

/-- The pattern of the regex in the source is at the head of `s`. -/
def BrAt (s : List Char) : Prop := lchars s 4 = ['<', 'b', 'r', '>']

/-- The pattern of the regex in the source is at the head of `s`. -/
def HrAt (s : List Char) : Prop := lchars s 4 = ['<', 'h', 'r', '>']

/-- The pattern of the regex in the source is at the head of `s`. -/
def NbspAt (s : List Char) : Prop := lchars s 6 = ['&', 'n', 'b', 's', 'p', ';']

instance decBrAt (s : List Char) : Decidable (BrAt s) := List.hasDecEq _ _

instance decHrAt (s : List Char) : Decidable (HrAt s) := List.hasDecEq _ _

instance decNbspAt (s : List Char) : Decidable (NbspAt s) := List.hasDecEq _ _

/-- `text.replace(/<br>/gi, "<br/>")` over the character list. -/
def replaceBr : List Char → List Char
  | c0 :: c1 :: c2 :: c3 :: rest =>
    if BrAt (c0 :: c1 :: c2 :: c3 :: rest) then
      '<' :: 'b' :: 'r' :: '/' :: '>' :: replaceBr rest
    else
      c0 :: replaceBr (c1 :: c2 :: c3 :: rest)
  | s => s

/-- `text.replace(/<hr>/gi, "<hr/>")` over the character list. -/
def replaceHr : List Char → List Char
  | c0 :: c1 :: c2 :: c3 :: rest =>
    if HrAt (c0 :: c1 :: c2 :: c3 :: rest) then
      '<' :: 'h' :: 'r' :: '/' :: '>' :: replaceHr rest
    else
      c0 :: replaceHr (c1 :: c2 :: c3 :: rest)
  | s => s

/-- `text.replace(/&nbsp;/gi, "&#160;")` over the character list. -/
def replaceNbsp : List Char → List Char
  | c0 :: c1 :: c2 :: c3 :: c4 :: c5 :: rest =>
    if NbspAt (c0 :: c1 :: c2 :: c3 :: c4 :: c5 :: rest) then
      '&' :: '#' :: '1' :: '6' :: '0' :: ';' :: replaceNbsp rest
    else
      c0 :: replaceNbsp (c1 :: c2 :: c3 :: c4 :: c5 :: rest)
  | s => s

/-- `HTMLText.sanitiseText`: the three replacements applied in source order. -/
def sanitiseText (text : String) : String :=
  ⟨replaceNbsp (replaceHr (replaceBr text.data))⟩

/-- The specification-side sanitiser: a single left-to-right pass that
replaces every (case-insensitive) occurrence of any of the three patterns
by its listed replacement and copies every other character unchanged. -/
def sanitiseSpecList : List Char → List Char
  | [] => []
  | c :: cs =>
    if BrAt (c :: cs) then
      '<' :: 'b' :: 'r' :: '/' :: '>' :: sanitiseSpecList (cs.drop 3)
    else if HrAt (c :: cs) then
      '<' :: 'h' :: 'r' :: '/' :: '>' :: sanitiseSpecList (cs.drop 3)
    else if NbspAt (c :: cs) then
      '&' :: '#' :: '1' :: '6' :: '0' :: ';' :: sanitiseSpecList (cs.drop 5)
    else
      c :: sanitiseSpecList cs
termination_by s => s.length
decreasing_by
  all_goals simp [List.length_drop]
  all_goals omega

/-- String version of `sanitiseSpecList`. -/
def sanitiseSpec (text : String) : String :=
  ⟨sanitiseSpecList text.data⟩

/-! ### The instance state

Only the style fields the modelled claims depend on are carried
(`styleID`, `padding`, `trim`); the purely presentational fields
(fill, font, alignment, stroke, drop shadow, ...) feed exclusively into the
CSS string embedded in the SVG payload, which is abstracted below. -/

/-- The slice of `PIXI.TextStyle` the modelled behaviour reads. -/
structure Style where
  styleID : ℤ
  padding : ℚ
  trim : Bool
deriving DecidableEq

/-- A `PIXI.Rectangle`. -/
structure Rect where
  x : ℚ := 0
  y : ℚ := 0
  width : ℚ := 0
  height : ℚ := 0
deriving DecidableEq

/-- The texture metadata the class mutates: the trim rectangle, the origin
rectangle, the frame, and the real pixel size of the base texture. -/
structure TextureState where
  trim : Rect
  orig : Rect
  frame : Rect
  realWidth : ℚ
  realHeight : ℚ
deriving DecidableEq

/-- The offscreen `Image` used for the SVG decode: its `src` and whether an
`onload` or `onerror` callback is currently attached. -/
structure ImageState where
  src : String
  onloadSet : Bool
  onerrorSet : Bool
deriving DecidableEq

/-- A JavaScript value assigned to the `text` setter: a string, `null`, or
`undefined`. -/
inductive TextInput where
  | str (s : String)
  | null
  | undefined
deriving DecidableEq

/-- The coercion at the head of the `text` setter:
`String(text === '' || text === null || text === undefined ? ' ' : text)`. -/
def coerceText : TextInput → String
  | .str s => if s = "" then " " else s
  | .null => " "
  | .undefined => " "

/-- The mutable fields of an `HTMLText` instance.  `issued` and `passes` are
ghost counters: `issued` counts decode requests started (assignments of a
data URL to `image.src` together with attaching `onload`), `passes` counts
rasterization passes of `updateText` that ran past the dirty check. -/
structure HTMLTextState where
  style : Style
  _text : Option String
  _resolution : ℚ
  _autoResolution : Bool
  _loading : Bool
  localStyleID : ℤ
  dirty : Bool
  canvasWidth : ℚ
  canvasHeight : ℚ
  texture : TextureState
  image : ImageState
  scaleX : ℚ
  scaleY : ℚ
  _width : ℚ
  _height : ℚ
  destroyed : Bool
  issued : ℕ
  passes : ℕ
deriving DecidableEq

/-- The data URL assigned to `image.src` when a decode is started.  The
XML serialization and URL-encoding of the SVG document are abstracted to the
current text content; only the fact that a fresh nonempty source is assigned
matters to the claims. -/
def dataURL (st : HTMLTextState) : String :=
  "data:image/svg+xml;charset=utf8," ++ st._text.getD ""

/-- The `text` setter (TS revision, identical in the JS revision). -/
def setText (v : TextInput) (st : HTMLTextState) : HTMLTextState :=
  let t := sanitiseText (coerceText v)
  if st._text = some t then st
  else { st with _text := some t, dirty := true }

/-- The `resolution` setter. -/
def setResolution (v : ℚ) (st : HTMLTextState) : HTMLTextState :=
  let st := { st with _autoResolution := false }
  if st._resolution = v then st
  else { st with _resolution := v, dirty := true }

/-- The `style` setter (the `TextStyle` wrapping of a plain object collapses
to the style record itself). -/
def setStyle (s : Style) (st : HTMLTextState) : HTMLTextState :=
  { st with style := s, localStyleID := -1, dirty := true }

/-- `utils.sign`. -/
def jsign (q : ℚ) : ℚ :=
  if q < 0 then -1 else if 0 < q then 1 else 0

/-- Modelled from the host engine (`PIXI.Sprite._onTextureUpdate`), which is
not part of this repository: when an explicit `_width` or `_height` was set,
the scale is re-derived from the origin rectangle of the texture. -/
def onTextureUpdate (st : HTMLTextState) : HTMLTextState :=
  let st :=
    if st._width ≠ 0 then
      { st with scaleX := jsign st.scaleX * st._width / st.texture.orig.width }
    else st
  if st._height ≠ 0 then
    { st with scaleY := jsign st.scaleY * st._height / st.texture.orig.height }
  else st

/-- `HTMLText.updateTexture` (TS revision).  `trimResult` is the value the
browser-dependent `utils.trimCanvas` returns: `some (w, h)` when it found
non-transparent pixels (its `data` field is non-null) and the trimmed size is
`w × h`, `none` when `data` is null. -/
def updateTexture (trimResult : Option (ℚ × ℚ)) (st : HTMLTextState) :
    HTMLTextState :=
  let st :=
    if st.style.trim then
      match trimResult with
      | some wh => { st with canvasWidth := wh.1, canvasHeight := wh.2 }
      | none => st
    else st
  let padding : ℚ := if st.style.trim then 0 else st.style.padding
  let fw := st.canvasWidth / st._resolution
  let fh := st.canvasHeight / st._resolution
  let st := { st with
    texture := { st.texture with
      trim := { x := -padding, y := -padding, width := fw, height := fh },
      frame := { st.texture.frame with width := fw, height := fh },
      orig := { st.texture.orig with
        width := fw - padding * 2, height := fh - padding * 2 } } }
  let st := onTextureUpdate st
  let st := { st with
    texture := { st.texture with
      realWidth := st.canvasWidth, realHeight := st.canvasHeight } }
  { st with dirty := false }

/-- `HTMLText.updateText` (TS revision).  `measuredW`/`measuredH` are the DOM
bounding-box dimensions the browser reports for the styled content. -/
def updateText (respectDirty : Bool) (measuredW measuredH : ℚ)
    (st : HTMLTextState) : HTMLTextState :=
  let st :=
    if st.localStyleID ≠ st.style.styleID then
      { st with dirty := true, localStyleID := st.style.styleID }
    else st
  if !st.dirty && respectDirty then st
  else
    let width : ℤ := ⌈measuredW⌉
    let height : ℤ := ⌈measuredH⌉
    let st := { st with
      canvasWidth :=
        ((⌈((max 1 width : ℤ) + st.style.padding * 2) * st._resolution⌉ : ℤ) : ℚ),
      canvasHeight :=
        ((⌈((max 1 height : ℤ) + st.style.padding * 2) * st._resolution⌉ : ℤ) : ℚ),
      passes := st.passes + 1 }
    if !st._loading then
      { st with
        _loading := true,
        image := { src := dataURL st, onloadSet := true,
                   onerrorSet := st.image.onerrorSet },
        issued := st.issued + 1 }
    else st

/-- The decode completing: the browser fires the load event, which invokes the
attached `onload` callback (if one is attached).  The callback draws the
decoded image, clears `src` and `onload`, resets `_loading`, and calls
`updateTexture`. -/
def completeDecode (trimResult : Option (ℚ × ℚ)) (st : HTMLTextState) :
    HTMLTextState :=
  if st.image.onloadSet then
    updateTexture trimResult
      { st with
        image := { st.image with src := "", onloadSet := false },
        _loading := false }
  else st

/-- `HTMLText.destroy`: release the canvas backing store (forced to 0 × 0),
detach the decode callback and clear the image source.  The nulling of the
canvas, context, style and DOM references is represented by the `destroyed`
flag. -/
def destroy (st : HTMLTextState) : HTMLTextState :=
  { st with
    destroyed := true,
    canvasWidth := 0, canvasHeight := 0,
    image := { st.image with onloadSet := false, src := "" } }

/-- `HTMLText._render` (TS revision): synchronise the resolution from the
renderer while `_autoResolution` holds, then refresh the text.  The final
delegation to `Sprite._render` touches none of the modelled fields. -/
def renderStep (rendererResolution measuredW measuredH : ℚ)
    (st : HTMLTextState) : HTMLTextState :=
  let st :=
    if st._autoResolution && st._resolution ≠ rendererResolution then
      { st with _resolution := rendererResolution, dirty := true }
    else st
  updateText true measuredW measuredH st

/-- The `width` getter (TS revision): refresh, then return
`Math.abs(this.scale.x) * this.canvas.width / this.resolution`.  The first
component is the post-getter state, the second the returned value. -/
def widthGet (measuredW measuredH : ℚ) (st : HTMLTextState) :
    HTMLTextState × ℚ :=
  let st := updateText true measuredW measuredH st
  (st, |st.scaleX| * st.canvasWidth / st._resolution)

/-- The `height` getter (TS revision): refresh, then return
`Math.abs(this.scale.y) * this.canvas.height / this.resolution`.  The first
component is the post-getter state, the second the returned value. -/
def heightGet (measuredW measuredH : ℚ) (st : HTMLTextState) :
    HTMLTextState × ℚ :=
  let st := updateText true measuredW measuredH st
  (st, |st.scaleY| * st.canvasHeight / st._resolution)

/-! ### The JS revision (`src/index.js`) where it differs from the TS one -/

/-- `HTMLText.updateTexture` in the JS revision: the frame and trim sizes are
`Math.ceil(canvas.width / resolution)` instead of the exact quotient. -/
def updateTexture_js (trimResult : Option (ℚ × ℚ)) (st : HTMLTextState) :
    HTMLTextState :=
  let st :=
    if st.style.trim then
      match trimResult with
      | some wh => { st with canvasWidth := wh.1, canvasHeight := wh.2 }
      | none => st
    else st
  let padding : ℚ := if st.style.trim then 0 else st.style.padding
  let fw : ℚ := ((⌈st.canvasWidth / st._resolution⌉ : ℤ) : ℚ)
  let fh : ℚ := ((⌈st.canvasHeight / st._resolution⌉ : ℤ) : ℚ)
  let st := { st with
    texture := { st.texture with
      trim := { x := -padding, y := -padding, width := fw, height := fh },
      frame := { st.texture.frame with width := fw, height := fh },
      orig := { st.texture.orig with
        width := fw - padding * 2, height := fh - padding * 2 } } }
  let st := onTextureUpdate st
  let st := { st with
    texture := { st.texture with
      realWidth := st.canvasWidth, realHeight := st.canvasHeight } }
  { st with dirty := false }

/-- `HTMLText.updateText` in the JS revision: the measured dimensions are not
ceiled before use, and when a decode is started `updateTexture` is also called
synchronously.  At that synchronous call the canvas was just resized and
cleared, so it is fully transparent and `trimCanvas` returns a null `data`
field; the inner call therefore receives `none`. -/
def updateText_js (respectDirty : Bool) (measuredW measuredH : ℚ)
    (st : HTMLTextState) : HTMLTextState :=
  let st :=
    if st.localStyleID ≠ st.style.styleID then
      { st with dirty := true, localStyleID := st.style.styleID }
    else st
  if !st.dirty && respectDirty then st
  else
    let st := { st with
      canvasWidth :=
        ((⌈(max 1 measuredW + st.style.padding * 2) * st._resolution⌉ : ℤ) : ℚ),
      canvasHeight :=
        ((⌈(max 1 measuredH + st.style.padding * 2) * st._resolution⌉ : ℤ) : ℚ),
      passes := st.passes + 1 }
    if !st._loading then
      let st := { st with
        _loading := true,
        image := { src := dataURL st, onloadSet := true,
                   onerrorSet := st.image.onerrorSet },
        issued := st.issued + 1 }
      updateTexture_js none st
    else st

/-- The `width` getter in the JS revision: refresh, then return
`Math.abs(this.scale.x) * this._texture.orig.width`. -/
def widthGet_js (measuredW measuredH : ℚ) (st : HTMLTextState) :
    HTMLTextState × ℚ :=
  let st := updateText_js true measuredW measuredH st
  (st, |st.scaleX| * st.texture.orig.width)

/-- The `height` getter in the JS revision: refresh, then return
`Math.abs(this.scale.y) * this._texture.orig.height`. -/
def heightGet_js (measuredW measuredH : ℚ) (st : HTMLTextState) :
    HTMLTextState × ℚ :=
  let st := updateText_js true measuredW measuredH st
  (st, |st.scaleY| * st.texture.orig.height)

/-! ### Operation sequences

`Op` enumerates the synchronous entry points of the class; decode completion
is a separate transition (`completeDecode`) fired by the platform only when
the started decode succeeds. -/

/-- A synchronous call into the instance. -/
inductive Op where
  | update (respectDirty : Bool) (measuredW measuredH : ℚ)
  | text (v : TextInput)
  | resolution (v : ℚ)
  | styleSet (s : Style)
  | render (rendererResolution measuredW measuredH : ℚ)

/-- Apply one call. -/
def applyOp : Op → HTMLTextState → HTMLTextState
  | .update rd mw mh, st => updateText rd mw mh st
  | .text v, st => setText v st
  | .resolution v, st => setResolution v st
  | .styleSet s, st => setStyle s st
  | .render r mw mh, st => renderStep r mw mh st

/-- Apply a sequence of calls, left to right. -/
def run (ops : List Op) (st : HTMLTextState) : HTMLTextState :=
  ops.foldl (fun s op => applyOp op s) st

/-! ### Concrete states -/

/-- The state right after `new HTMLText()` with default arguments: a 3 × 3
placeholder canvas, resolution from the global settings (1), then the
constructor body runs the `text` and `style` setters. -/
def mkState : HTMLTextState :=
  setStyle { styleID := 0, padding := 0, trim := false }
    (setText (.str "")
      { style := { styleID := 0, padding := 0, trim := false },
        _text := none,
        _resolution := 1,
        _autoResolution := true,
        _loading := false,
        localStyleID := -1,
        dirty := false,
        canvasWidth := 3, canvasHeight := 3,
        texture := { trim := {}, orig := {}, frame := {},
                     realWidth := 3, realHeight := 3 },
        image := { src := "", onloadSet := false, onerrorSet := false },
        scaleX := 1, scaleY := 1,
        _width := 0, _height := 0,
        destroyed := false,
        issued := 0, passes := 0 })

/-- A reachable-shape state with a 5-px-wide canvas at resolution 2, used to
separate the two revisions of `updateTexture`. -/
def cexState2 : HTMLTextState :=
  { mkState with canvasWidth := 5, canvasHeight := 5, _resolution := 2 }

/-- A dirty state with `style.padding = 4`, used to separate the two revisions
of the `width` getter. -/
def cexState7 : HTMLTextState :=
  { mkState with style := { styleID := 0, padding := 4, trim := false },
                 localStyleID := 0, dirty := true }

/-! ### Lemmas about the sanitiser -/

theorem lchars_zero (s : List Char) : lchars s 0 = [] := rfl

theorem lchars_nil (n : ℕ) : lchars [] n = [] := by
  cases n <;> rfl

theorem lchars_cons_succ (c : Char) (cs : List Char) (n : ℕ) :
    lchars (c :: cs) (n + 1) = c.toLower :: lchars cs n := rfl

theorem lchars_cons4 (c : Char) (cs : List Char) :
    lchars (c :: cs) 4 = c.toLower :: lchars cs 3 := rfl

theorem lchars_cons6 (c : Char) (cs : List Char) :
    lchars (c :: cs) 6 = c.toLower :: lchars cs 5 := rfl

theorem BrAt_length (s : List Char) (h : BrAt s) : 4 ≤ s.length := by
  have h' := congrArg List.length h
  simp only [lchars, List.length_map, List.length_take, List.length_cons,
    List.length_nil] at h'
  omega

theorem HrAt_length (s : List Char) (h : HrAt s) : 4 ≤ s.length := by
  have h' := congrArg List.length h
  simp only [lchars, List.length_map, List.length_take, List.length_cons,
    List.length_nil] at h'
  omega

theorem NbspAt_length (s : List Char) (h : NbspAt s) : 6 ≤ s.length := by
  have h' := congrArg List.length h
  simp only [lchars, List.length_map, List.length_take, List.length_cons,
    List.length_nil] at h'
  omega

theorem BrAt_cons_iff (c : Char) (cs : List Char) :
    BrAt (c :: cs) ↔ c.toLower = '<' ∧ lchars cs 3 = ['b', 'r', '>'] := by
  simp only [BrAt, lchars_cons4, List.cons.injEq]

theorem HrAt_cons_iff (c : Char) (cs : List Char) :
    HrAt (c :: cs) ↔ c.toLower = '<' ∧ lchars cs 3 = ['h', 'r', '>'] := by
  simp only [HrAt, lchars_cons4, List.cons.injEq]

theorem NbspAt_cons_iff (c : Char) (cs : List Char) :
    NbspAt (c :: cs) ↔ c.toLower = '&' ∧ lchars cs 5 = ['n', 'b', 's', 'p', ';'] := by
  simp only [NbspAt, lchars_cons6, List.cons.injEq]

theorem not_BrAt_head (c : Char) (cs : List Char) (h : c.toLower ≠ '<') :
    ¬ BrAt (c :: cs) := by
  intro hb
  exact h ((BrAt_cons_iff c cs).mp hb).1

theorem not_HrAt_head (c : Char) (cs : List Char) (h : c.toLower ≠ '<') :
    ¬ HrAt (c :: cs) := by
  intro hb
  exact h ((HrAt_cons_iff c cs).mp hb).1

theorem not_NbspAt_head (c : Char) (cs : List Char) (h : c.toLower ≠ '&') :
    ¬ NbspAt (c :: cs) := by
  intro hb
  exact h ((NbspAt_cons_iff c cs).mp hb).1

theorem BrAt_cons4 (c0 c1 c2 c3 : Char) (r : List Char) :
    BrAt (c0 :: c1 :: c2 :: c3 :: r) ↔
      c0.toLower = '<' ∧ c1.toLower = 'b' ∧ c2.toLower = 'r' ∧ c3.toLower = '>' := by
  have e : lchars (c0 :: c1 :: c2 :: c3 :: r) 4
      = [c0.toLower, c1.toLower, c2.toLower, c3.toLower] := rfl
  simp only [BrAt, e, List.cons.injEq, and_true]

theorem HrAt_cons4 (c0 c1 c2 c3 : Char) (r : List Char) :
    HrAt (c0 :: c1 :: c2 :: c3 :: r) ↔
      c0.toLower = '<' ∧ c1.toLower = 'h' ∧ c2.toLower = 'r' ∧ c3.toLower = '>' := by
  have e : lchars (c0 :: c1 :: c2 :: c3 :: r) 4
      = [c0.toLower, c1.toLower, c2.toLower, c3.toLower] := rfl
  simp only [HrAt, e, List.cons.injEq, and_true]

theorem NbspAt_cons6 (c0 c1 c2 c3 c4 c5 : Char) (r : List Char) :
    NbspAt (c0 :: c1 :: c2 :: c3 :: c4 :: c5 :: r) ↔
      c0.toLower = '&' ∧ c1.toLower = 'n' ∧ c2.toLower = 'b' ∧ c3.toLower = 's'
        ∧ c4.toLower = 'p' ∧ c5.toLower = ';' := by
  have e : lchars (c0 :: c1 :: c2 :: c3 :: c4 :: c5 :: r) 6
      = [c0.toLower, c1.toLower, c2.toLower, c3.toLower, c4.toLower, c5.toLower] := rfl
  simp only [NbspAt, e, List.cons.injEq, and_true]

theorem replaceBr_neg (c : Char) (cs : List Char) (h : ¬ BrAt (c :: cs)) :
    replaceBr (c :: cs) = c :: replaceBr cs := by
  rcases cs with _ | ⟨c1, _ | ⟨c2, _ | ⟨c3, r⟩⟩⟩
  · rfl
  · rfl
  · rfl
  · simp only [replaceBr]
    rw [if_neg h]

theorem replaceHr_neg (c : Char) (cs : List Char) (h : ¬ HrAt (c :: cs)) :
    replaceHr (c :: cs) = c :: replaceHr cs := by
  rcases cs with _ | ⟨c1, _ | ⟨c2, _ | ⟨c3, r⟩⟩⟩
  · rfl
  · rfl
  · rfl
  · simp only [replaceHr]
    rw [if_neg h]

theorem replaceNbsp_neg (c : Char) (cs : List Char) (h : ¬ NbspAt (c :: cs)) :
    replaceNbsp (c :: cs) = c :: replaceNbsp cs := by
  rcases cs with _ | ⟨c1, _ | ⟨c2, _ | ⟨c3, _ | ⟨c4, _ | ⟨c5, r⟩⟩⟩⟩⟩
  · rfl
  · rfl
  · rfl
  · rfl
  · rfl
  · simp only [replaceNbsp]
    rw [if_neg h]

theorem replaceBr_pos (s : List Char) (h : BrAt s) :
    replaceBr s = '<' :: 'b' :: 'r' :: '/' :: '>' :: replaceBr (s.drop 4) := by
  rcases s with _ | ⟨c0, _ | ⟨c1, _ | ⟨c2, _ | ⟨c3, r⟩⟩⟩⟩
  · exact absurd (BrAt_length _ h) (by simp)
  · exact absurd (BrAt_length _ h) (by simp)
  · exact absurd (BrAt_length _ h) (by simp)
  · exact absurd (BrAt_length _ h) (by simp)
  · simp only [replaceBr]
    rw [if_pos h]
    rfl

theorem replaceHr_pos (s : List Char) (h : HrAt s) :
    replaceHr s = '<' :: 'h' :: 'r' :: '/' :: '>' :: replaceHr (s.drop 4) := by
  rcases s with _ | ⟨c0, _ | ⟨c1, _ | ⟨c2, _ | ⟨c3, r⟩⟩⟩⟩
  · exact absurd (HrAt_length _ h) (by simp)
  · exact absurd (HrAt_length _ h) (by simp)
  · exact absurd (HrAt_length _ h) (by simp)
  · exact absurd (HrAt_length _ h) (by simp)
  · simp only [replaceHr]
    rw [if_pos h]
    rfl

theorem replaceNbsp_pos (s : List Char) (h : NbspAt s) :
    replaceNbsp s = '&' :: '#' :: '1' :: '6' :: '0' :: ';' :: replaceNbsp (s.drop 6) := by
  rcases s with _ | ⟨c0, _ | ⟨c1, _ | ⟨c2, _ | ⟨c3, _ | ⟨c4, _ | ⟨c5, r⟩⟩⟩⟩⟩⟩
  · exact absurd (NbspAt_length _ h) (by simp)
  · exact absurd (NbspAt_length _ h) (by simp)
  · exact absurd (NbspAt_length _ h) (by simp)
  · exact absurd (NbspAt_length _ h) (by simp)
  · exact absurd (NbspAt_length _ h) (by simp)
  · exact absurd (NbspAt_length _ h) (by simp)
  · simp only [replaceNbsp]
    rw [if_pos h]
    rfl

theorem replaceHr_brBlock (u : List Char) :
    replaceHr ('<' :: 'b' :: 'r' :: '/' :: '>' :: u)
      = '<' :: 'b' :: 'r' :: '/' :: '>' :: replaceHr u := by
  have h0 : ¬ HrAt ('<' :: 'b' :: 'r' :: '/' :: '>' :: u) := by
    rw [HrAt_cons4]
    decide
  rw [replaceHr_neg _ _ h0,
    replaceHr_neg _ _ (not_HrAt_head _ _ (by decide)),
    replaceHr_neg _ _ (not_HrAt_head _ _ (by decide)),
    replaceHr_neg _ _ (not_HrAt_head _ _ (by decide)),
    replaceHr_neg _ _ (not_HrAt_head _ _ (by decide))]

theorem replaceNbsp_brBlock (u : List Char) :
    replaceNbsp ('<' :: 'b' :: 'r' :: '/' :: '>' :: u)
      = '<' :: 'b' :: 'r' :: '/' :: '>' :: replaceNbsp u := by
  rw [replaceNbsp_neg _ _ (not_NbspAt_head _ _ (by decide)),
    replaceNbsp_neg _ _ (not_NbspAt_head _ _ (by decide)),
    replaceNbsp_neg _ _ (not_NbspAt_head _ _ (by decide)),
    replaceNbsp_neg _ _ (not_NbspAt_head _ _ (by decide)),
    replaceNbsp_neg _ _ (not_NbspAt_head _ _ (by decide))]

theorem replaceNbsp_hrBlock (u : List Char) :
    replaceNbsp ('<' :: 'h' :: 'r' :: '/' :: '>' :: u)
      = '<' :: 'h' :: 'r' :: '/' :: '>' :: replaceNbsp u := by
  rw [replaceNbsp_neg _ _ (not_NbspAt_head _ _ (by decide)),
    replaceNbsp_neg _ _ (not_NbspAt_head _ _ (by decide)),
    replaceNbsp_neg _ _ (not_NbspAt_head _ _ (by decide)),
    replaceNbsp_neg _ _ (not_NbspAt_head _ _ (by decide)),
    replaceNbsp_neg _ _ (not_NbspAt_head _ _ (by decide))]

theorem lchars_replaceBr_aux :
    ∀ (n : ℕ) (u : List Char), u.length ≤ n →
      ∀ k, k ≤ 3 → lchars (replaceBr u) k = lchars u k := by
  intro n
  induction n with
  | zero =>
    intro u hu k _
    have : u = [] := List.eq_nil_of_length_eq_zero (Nat.le_zero.mp hu)
    subst this
    rfl
  | succ n ih =>
    intro u hu k hk
    rcases u with _ | ⟨c, cs⟩
    · rfl
    · by_cases hb : BrAt (c :: cs)
      · rcases cs with _ | ⟨c1, _ | ⟨c2, _ | ⟨c3, r⟩⟩⟩
        · exact absurd (BrAt_length _ hb) (by simp)
        · exact absurd (BrAt_length _ hb) (by simp)
        · exact absurd (BrAt_length _ hb) (by simp)
        · obtain ⟨e0, e1, e2, e3⟩ := (BrAt_cons4 c c1 c2 c3 r).mp hb
          rw [replaceBr_pos _ hb]
          rcases k with _ | _ | _ | _ | k
          · rfl
          · simp only [lchars_cons_succ, lchars_zero, e0]
            decide
          · simp only [lchars_cons_succ, lchars_zero, e0, e1]
            decide
          · simp only [lchars_cons_succ, lchars_zero, e0, e1, e2]
            decide
          · exact absurd hk (by omega)
      · rw [replaceBr_neg _ _ hb]
        rcases k with _ | k
        · rfl
        · rw [lchars_cons_succ, lchars_cons_succ]
          have hcs : cs.length ≤ n := by
            simp only [List.length_cons] at hu
            omega
          rw [ih cs hcs k (by omega)]

theorem lchars_replaceBr (u : List Char) (k : ℕ) (hk : k ≤ 3) :
    lchars (replaceBr u) k = lchars u k :=
  lchars_replaceBr_aux u.length u le_rfl k hk

theorem pull_replaceBr_aux :
    ∀ (n : ℕ) (u p : List Char), u.length ≤ n → '<' ∉ p →
      lchars (replaceBr u) p.length = p → lchars u p.length = p := by
  intro n
  induction n with
  | zero =>
    intro u p hu _ h3
    have : u = [] := List.eq_nil_of_length_eq_zero (Nat.le_zero.mp hu)
    subst this
    exact h3
  | succ n ih =>
    intro u p hu hp h3
    rcases u with _ | ⟨c, cs⟩
    · exact h3
    · by_cases hb : BrAt (c :: cs)
      · rw [replaceBr_pos _ hb] at h3
        rcases p with _ | ⟨q, p'⟩
        · rfl
        · simp only [List.length_cons, lchars_cons_succ] at h3
          have hq : q = '<' := by
            have := (List.cons.injEq _ _ _ _).mp h3
            rw [← this.1]
            decide
          exact absurd (by rw [hq]; exact List.mem_cons_self _ _) hp
      · rw [replaceBr_neg _ _ hb] at h3
        rcases p with _ | ⟨q, p'⟩
        · rfl
        · simp only [List.length_cons, lchars_cons_succ] at h3 ⊢
          obtain ⟨h3a, h3b⟩ := (List.cons.injEq _ _ _ _).mp h3
          rw [List.mem_cons] at hp
          push_neg at hp
          have hcs : cs.length ≤ n := by
            simp only [List.length_cons] at hu
            omega
          rw [h3a, ih cs p' hcs hp.2 h3b]

theorem pull_replaceBr (u p : List Char) (hp : '<' ∉ p)
    (h : lchars (replaceBr u) p.length = p) : lchars u p.length = p :=
  pull_replaceBr_aux u.length u p le_rfl hp h

theorem pull_replaceHr_aux :
    ∀ (n : ℕ) (u p : List Char), u.length ≤ n → '<' ∉ p →
      lchars (replaceHr u) p.length = p → lchars u p.length = p := by
  intro n
  induction n with
  | zero =>
    intro u p hu _ h3
    have : u = [] := List.eq_nil_of_length_eq_zero (Nat.le_zero.mp hu)
    subst this
    exact h3
  | succ n ih =>
    intro u p hu hp h3
    rcases u with _ | ⟨c, cs⟩
    · exact h3
    · by_cases hb : HrAt (c :: cs)
      · rw [replaceHr_pos _ hb] at h3
        rcases p with _ | ⟨q, p'⟩
        · rfl
        · simp only [List.length_cons, lchars_cons_succ] at h3
          have hq : q = '<' := by
            have := (List.cons.injEq _ _ _ _).mp h3
            rw [← this.1]
            decide
          exact absurd (by rw [hq]; exact List.mem_cons_self _ _) hp
      · rw [replaceHr_neg _ _ hb] at h3
        rcases p with _ | ⟨q, p'⟩
        · rfl
        · simp only [List.length_cons, lchars_cons_succ] at h3 ⊢
          obtain ⟨h3a, h3b⟩ := (List.cons.injEq _ _ _ _).mp h3
          rw [List.mem_cons] at hp
          push_neg at hp
          have hcs : cs.length ≤ n := by
            simp only [List.length_cons] at hu
            omega
          rw [h3a, ih cs p' hcs hp.2 h3b]

theorem pull_replaceHr (u p : List Char) (hp : '<' ∉ p)
    (h : lchars (replaceHr u) p.length = p) : lchars u p.length = p :=
  pull_replaceHr_aux u.length u p le_rfl hp h

theorem sanitise_eq_spec_aux :
    ∀ (n : ℕ) (s : List Char), s.length ≤ n →
      replaceNbsp (replaceHr (replaceBr s)) = sanitiseSpecList s := by
  intro n
  induction n with
  | zero =>
    intro s hs
    have : s = [] := List.eq_nil_of_length_eq_zero (Nat.le_zero.mp hs)
    subst this
    simp only [sanitiseSpecList]
    rfl
  | succ n ih =>
    intro s hs
    rcases s with _ | ⟨c, cs⟩
    · simp only [sanitiseSpecList]
      rfl
    · simp only [List.length_cons] at hs
      by_cases hbr : BrAt (c :: cs)
      · rw [replaceBr_pos _ hbr, replaceHr_brBlock, replaceNbsp_brBlock]
        simp only [sanitiseSpecList]
        rw [if_pos hbr]
        rw [show (c :: cs).drop 4 = cs.drop 3 from rfl]
        rw [ih (cs.drop 3) (by simp only [List.length_drop]; omega)]
      · by_cases hhr : HrAt (c :: cs)
        · rcases cs with _ | ⟨c1, _ | ⟨c2, _ | ⟨c3, r⟩⟩⟩
          · exact absurd (HrAt_length _ hhr) (by simp)
          · exact absurd (HrAt_length _ hhr) (by simp)
          · exact absurd (HrAt_length _ hhr) (by simp)
          · obtain ⟨e0, e1, e2, e3⟩ := (HrAt_cons4 c c1 c2 c3 r).mp hhr
            rw [replaceBr_neg _ _ hbr,
              replaceBr_neg _ _ (not_BrAt_head _ _ (by rw [e1]; decide)),
              replaceBr_neg _ _ (not_BrAt_head _ _ (by rw [e2]; decide)),
              replaceBr_neg _ _ (not_BrAt_head _ _ (by rw [e3]; decide))]
            have hA : HrAt (c :: c1 :: c2 :: c3 :: replaceBr r) :=
              (HrAt_cons4 c c1 c2 c3 (replaceBr r)).mpr ⟨e0, e1, e2, e3⟩
            rw [replaceHr_pos _ hA]
            rw [show (c :: c1 :: c2 :: c3 :: replaceBr r).drop 4 = replaceBr r from rfl]
            rw [replaceNbsp_hrBlock]
            simp only [sanitiseSpecList]
            rw [if_neg hbr, if_pos hhr]
            rw [show (c1 :: c2 :: c3 :: r).drop 3 = r from rfl]
            rw [ih r (by simp only [List.length_cons] at hs; omega)]
        · by_cases hnb : NbspAt (c :: cs)
          · rcases cs with _ | ⟨c1, _ | ⟨c2, _ | ⟨c3, _ | ⟨c4, _ | ⟨c5, r⟩⟩⟩⟩⟩
            · exact absurd (NbspAt_length _ hnb) (by simp)
            · exact absurd (NbspAt_length _ hnb) (by simp)
            · exact absurd (NbspAt_length _ hnb) (by simp)
            · exact absurd (NbspAt_length _ hnb) (by simp)
            · exact absurd (NbspAt_length _ hnb) (by simp)
            · obtain ⟨e0, e1, e2, e3, e4, e5⟩ :=
                (NbspAt_cons6 c c1 c2 c3 c4 c5 r).mp hnb
              rw [replaceBr_neg _ _ hbr,
                replaceBr_neg _ _ (not_BrAt_head _ _ (by rw [e1]; decide)),
                replaceBr_neg _ _ (not_BrAt_head _ _ (by rw [e2]; decide)),
                replaceBr_neg _ _ (not_BrAt_head _ _ (by rw [e3]; decide)),
                replaceBr_neg _ _ (not_BrAt_head _ _ (by rw [e4]; decide)),
                replaceBr_neg _ _ (not_BrAt_head _ _ (by rw [e5]; decide))]
              rw [replaceHr_neg _ _ (not_HrAt_head _ _ (by rw [e0]; decide)),
                replaceHr_neg _ _ (not_HrAt_head _ _ (by rw [e1]; decide)),
                replaceHr_neg _ _ (not_HrAt_head _ _ (by rw [e2]; decide)),
                replaceHr_neg _ _ (not_HrAt_head _ _ (by rw [e3]; decide)),
                replaceHr_neg _ _ (not_HrAt_head _ _ (by rw [e4]; decide)),
                replaceHr_neg _ _ (not_HrAt_head _ _ (by rw [e5]; decide))]
              have hA : NbspAt (c :: c1 :: c2 :: c3 :: c4 :: c5
                  :: replaceHr (replaceBr r)) :=
                (NbspAt_cons6 c c1 c2 c3 c4 c5 (replaceHr (replaceBr r))).mpr
                  ⟨e0, e1, e2, e3, e4, e5⟩
              rw [replaceNbsp_pos _ hA]
              rw [show (c :: c1 :: c2 :: c3 :: c4 :: c5
                  :: replaceHr (replaceBr r)).drop 6 = replaceHr (replaceBr r) from rfl]
              simp only [sanitiseSpecList]
              rw [if_neg hbr, if_neg hhr, if_pos hnb]
              rw [show (c1 :: c2 :: c3 :: c4 :: c5 :: r).drop 5 = r from rfl]
              rw [ih r (by simp only [List.length_cons] at hs; omega)]
          · rw [replaceBr_neg _ _ hbr]
            have hhr2 : ¬ HrAt (c :: replaceBr cs) := by
              intro hx
              rw [HrAt_cons_iff] at hx
              refine hhr ((HrAt_cons_iff c cs).mpr ⟨hx.1, ?_⟩)
              have := lchars_replaceBr cs 3 (by omega)
              rw [← this]
              exact hx.2
            rw [replaceHr_neg _ _ hhr2]
            have hnb2 : ¬ NbspAt (c :: replaceHr (replaceBr cs)) := by
              intro hx
              rw [NbspAt_cons_iff] at hx
              refine hnb ((NbspAt_cons_iff c cs).mpr ⟨hx.1, ?_⟩)
              have h5 : lchars (replaceBr cs) 5 = ['n', 'b', 's', 'p', ';'] :=
                pull_replaceHr (replaceBr cs) ['n', 'b', 's', 'p', ';']
                  (by decide) hx.2
              exact pull_replaceBr cs ['n', 'b', 's', 'p', ';'] (by decide) h5
            rw [replaceNbsp_neg _ _ hnb2]
            simp only [sanitiseSpecList]
            rw [if_neg hbr, if_neg hhr, if_neg hnb]
            rw [ih cs (by omega)]

theorem sanitise_eq_spec_list (s : List Char) :
    replaceNbsp (replaceHr (replaceBr s)) = sanitiseSpecList s :=
  sanitise_eq_spec_aux s.length s le_rfl

/-- Sanity check of the sequential sanitiser on the example from the spec. -/
theorem sanitiseText_example_br : sanitiseText "a<br>b" = "a<br/>b" := by decide

/-- Sanity check of the sequential sanitiser on the example from the spec. -/
theorem sanitiseText_example_nbsp : sanitiseText "x&nbsp;y" = "x&#160;y" := by decide

/-- Sanity check: replacement is case-insensitive and the replacements are the
listed literals. -/
theorem sanitiseText_example_mixed :
    sanitiseText "A<BR><Hr>&NbSp;" = "A<br/><hr/>&#160;" := by decide

/-- C3: For every string assigned to the text setter, sanitization replaces
every occurrence (case-insensitively) of the exact substring `<br>` with
`<br/>`, `<hr>` with `<hr/>`, and `&nbsp;` with `&#160;`, byte-for-byte, and
leaves all other characters unchanged: the sequential three-pass replacement
of the source coincides with the single-pass sanitiser that replaces every
pattern occurrence and copies every other character. -/
theorem C3_sanitise_replaces_every_occurrence (s : String) :
    sanitiseText s = sanitiseSpec s :=
  congrArg String.mk (sanitise_eq_spec_list s.data)

/-! ### Lemmas about the state model -/

/-- `onTextureUpdate` only rescales; every other field is untouched. -/
theorem onTextureUpdate_eq (st : HTMLTextState) :
    onTextureUpdate st = { st with
      scaleX := if st._width ≠ 0 then
          jsign st.scaleX * st._width / st.texture.orig.width
        else st.scaleX,
      scaleY := if st._height ≠ 0 then
          jsign st.scaleY * st._height / st.texture.orig.height
        else st.scaleY } := by
  simp only [onTextureUpdate]
  split_ifs <;> rfl

/-- C6: Setting the text property to the empty string, to null, or to
undefined stores exactly the one-character string consisting of a single
space as the text content. -/
theorem C6_empty_text_becomes_space (st : HTMLTextState) :
    (setText (.str "") st)._text = some " "
      ∧ (setText .null st)._text = some " "
      ∧ (setText .undefined st)._text = some " " := by
  refine ⟨?_, ?_, ?_⟩
  · have h0 : sanitiseText (coerceText (.str "")) = " " := rfl
    simp only [setText, h0]
    by_cases hx : st._text = some " "
    · rw [if_pos hx]
      exact hx
    · rw [if_neg hx]
  · have h0 : sanitiseText (coerceText .null) = " " := rfl
    simp only [setText, h0]
    by_cases hx : st._text = some " "
    · rw [if_pos hx]
      exact hx
    · rw [if_neg hx]
  · have h0 : sanitiseText (coerceText .undefined) = " " := rfl
    simp only [setText, h0]
    by_cases hx : st._text = some " "
    · rw [if_pos hx]
      exact hx
    · rw [if_neg hx]

/-- C8: destroy detaches the image completion callback (onload cleared, image
source cleared), so a decode that completes after destroy leaves every field
of the destroyed instance unchanged. -/
theorem C8_destroy_detaches_decode (st : HTMLTextState) (tr : Option (ℚ × ℚ)) :
    (destroy st).image.onloadSet = false
      ∧ (destroy st).image.src = ""
      ∧ completeDecode tr (destroy st) = destroy st := by
  refine ⟨rfl, rfl, ?_⟩
  simp [completeDecode, destroy]

/-- C5: Assigning to the text setter a value whose sanitized form equals the
currently stored text leaves the whole state unchanged, and assigning the
current resolution to the resolution setter leaves the dirty flag and the
stored text and resolution unchanged. -/
theorem C5_setters_only_dirty_on_change (st : HTMLTextState) (v : TextInput)
    (r : ℚ) :
    (st._text = some (sanitiseText (coerceText v)) → setText v st = st)
      ∧ (r = st._resolution →
          (setResolution r st).dirty = st.dirty
            ∧ (setResolution r st)._resolution = st._resolution
            ∧ (setResolution r st)._text = st._text) := by
  constructor
  · intro h
    simp only [setText]
    rw [if_pos h]
  · intro h
    simp only [setResolution]
    rw [if_pos (by rw [h])]
    exact ⟨rfl, rfl, rfl⟩

/-- Witness for C5 at a concrete state and inputs. -/
theorem C5_witness :
    ({ mkState with _text := some "abc" }._text
        = some (sanitiseText (coerceText (.str "abc")))
      ∧ setText (.str "abc") { mkState with _text := some "abc" }
        = { mkState with _text := some "abc" })
    ∧ ((1 : ℚ) = mkState._resolution
      ∧ (setResolution 1 mkState).dirty = mkState.dirty
      ∧ (setResolution 1 mkState)._resolution = mkState._resolution
      ∧ (setResolution 1 mkState)._text = mkState._text) :=
  ⟨⟨by decide,
    (C5_setters_only_dirty_on_change { mkState with _text := some "abc" }
      (.str "abc") 1).1 (by decide)⟩,
   ⟨rfl,
    (C5_setters_only_dirty_on_change mkState (.str "abc") 1).2 rfl⟩⟩

/-- The constructor composition evaluated to a record literal. -/
theorem mkState_eq : mkState =
    { style := { styleID := 0, padding := 0, trim := false },
      _text := some " ",
      _resolution := 1, _autoResolution := true, _loading := false,
      localStyleID := -1, dirty := true,
      canvasWidth := 3, canvasHeight := 3,
      texture := { trim := {}, orig := {}, frame := {},
                   realWidth := 3, realHeight := 3 },
      image := { src := "", onloadSet := false, onerrorSet := false },
      scaleX := 1, scaleY := 1, _width := 0, _height := 0,
      destroyed := false, issued := 0, passes := 0 } := rfl

/-- While a decode is pending, `updateText` neither issues a request nor
touches the image or the loading flag, and it keeps the dirty flag set. -/
theorem updateText_while_loading (rd : Bool) (mw mh : ℚ) (st : HTMLTextState)
    (h : st._loading = true) :
    (updateText rd mw mh st).issued = st.issued
      ∧ (updateText rd mw mh st).image = st.image
      ∧ (updateText rd mw mh st)._loading = true
      ∧ (st.dirty = true → (updateText rd mw mh st).dirty = true) := by
  by_cases h1 : st.localStyleID ≠ st.style.styleID <;>
    by_cases h2 : st.dirty = true <;>
      cases rd <;>
        simp_all [updateText]

/-- A completed rasterization pass of `updateText` (TS revision): the canvas
is resized by the formula of the source, the pass counter increments, and the
scale and resolution are untouched. -/
theorem updateText_pass (rd : Bool) (mw mh : ℚ) (st : HTMLTextState)
    (h : st.dirty = true ∨ st.localStyleID ≠ st.style.styleID ∨ rd = false) :
    (updateText rd mw mh st).canvasWidth
        = ((⌈((max 1 ⌈mw⌉ : ℤ) + st.style.padding * 2) * st._resolution⌉ : ℤ) : ℚ)
      ∧ (updateText rd mw mh st).canvasHeight
        = ((⌈((max 1 ⌈mh⌉ : ℤ) + st.style.padding * 2) * st._resolution⌉ : ℤ) : ℚ)
      ∧ (updateText rd mw mh st).passes = st.passes + 1
      ∧ (updateText rd mw mh st).scaleX = st.scaleX
      ∧ (updateText rd mw mh st)._resolution = st._resolution := by
  by_cases h1 : st.localStyleID ≠ st.style.styleID <;>
    by_cases h2 : st.dirty = true <;>
      cases rd <;>
        by_cases h3 : st._loading = true <;>
          simp_all [updateText]

/-- `updateText` never touches `_resolution`, `_autoResolution` or the
scale. -/
theorem updateText_untouched (rd : Bool) (mw mh : ℚ) (st : HTMLTextState) :
    (updateText rd mw mh st)._resolution = st._resolution
      ∧ (updateText rd mw mh st)._autoResolution = st._autoResolution
      ∧ (updateText rd mw mh st).scaleX = st.scaleX
      ∧ (updateText rd mw mh st).scaleY = st.scaleY := by
  by_cases h1 : st.localStyleID ≠ st.style.styleID <;>
    by_cases h2 : st.dirty = true <;>
      cases rd <;>
        by_cases h3 : st._loading = true <;>
          simp_all [updateText]

/-- The inner synchronous `updateTexture` call of the JS revision (always with
a null trim result) does not change the canvas size or the ghost counters. -/
theorem updateTextureJs_none_proj (st : HTMLTextState) :
    (updateTexture_js none st).canvasWidth = st.canvasWidth
      ∧ (updateTexture_js none st).canvasHeight = st.canvasHeight
      ∧ (updateTexture_js none st).passes = st.passes
      ∧ (updateTexture_js none st).issued = st.issued
      ∧ (updateTexture_js none st)._loading = st._loading
      ∧ (updateTexture_js none st).image = st.image := by
  by_cases h1 : st.style.trim <;>
    simp [updateTexture_js, onTextureUpdate_eq, h1]

/-- A completed rasterization pass of `updateText` (JS revision): the canvas
is resized by the formula of the source (raw measured dimensions) and the
pass counter increments. -/
theorem updateTextJs_pass (rd : Bool) (mw mh : ℚ) (st : HTMLTextState)
    (h : st.dirty = true ∨ st.localStyleID ≠ st.style.styleID ∨ rd = false) :
    (updateText_js rd mw mh st).canvasWidth
        = ((⌈(max 1 mw + st.style.padding * 2) * st._resolution⌉ : ℤ) : ℚ)
      ∧ (updateText_js rd mw mh st).canvasHeight
        = ((⌈(max 1 mh + st.style.padding * 2) * st._resolution⌉ : ℤ) : ℚ)
      ∧ (updateText_js rd mw mh st).passes = st.passes + 1 := by
  by_cases h1 : st.localStyleID ≠ st.style.styleID <;>
    by_cases h2 : st.dirty = true <;>
      cases rd <;>
        by_cases h3 : st._loading = true <;>
          simp_all [updateText_js, updateTextureJs_none_proj]

/-- C4: whenever `updateText` runs while a decode is pending, no new decode
request is issued (the ghost request counter and the image are unchanged and
the loading flag stays set), and a set dirty flag remains set, so a later
render tick retries the rasterization. -/
theorem C4_single_decode_in_flight (rd : Bool) (mw mh : ℚ)
    (st : HTMLTextState) (h : st._loading = true) :
    (updateText rd mw mh st).issued = st.issued
      ∧ (updateText rd mw mh st).image = st.image
      ∧ (updateText rd mw mh st)._loading = true
      ∧ (st.dirty = true → (updateText rd mw mh st).dirty = true) :=
  updateText_while_loading rd mw mh st h

/-- Witness for C4 at a concrete pending-decode state. -/
theorem C4_witness :
    ({ mkState with _loading := true }._loading = true)
      ∧ ((updateText true 5 7 { mkState with _loading := true }).issued
          = { mkState with _loading := true }.issued
        ∧ (updateText true 5 7 { mkState with _loading := true }).image
          = { mkState with _loading := true }.image
        ∧ (updateText true 5 7 { mkState with _loading := true })._loading = true
        ∧ ({ mkState with _loading := true }.dirty = true →
            (updateText true 5 7 { mkState with _loading := true }).dirty = true)) :=
  ⟨rfl, C4_single_decode_in_flight true 5 7 { mkState with _loading := true } rfl⟩

/-- Every synchronous call preserves a pending loading flag and the request
counter while it is pending. -/
theorem applyOp_loading (op : Op) (st : HTMLTextState)
    (h : st._loading = true) :
    (applyOp op st)._loading = true ∧ (applyOp op st).issued = st.issued := by
  cases op with
  | update rd mw mh =>
    have h' := updateText_while_loading rd mw mh st h
    exact ⟨h'.2.2.1, h'.1⟩
  | text v =>
    simp only [applyOp, setText]
    split_ifs <;> exact ⟨h, rfl⟩
  | resolution v =>
    simp only [applyOp, setResolution]
    split_ifs <;> exact ⟨h, rfl⟩
  | styleSet s =>
    exact ⟨h, rfl⟩
  | render r mw mh =>
    simp only [applyOp, renderStep]
    split_ifs with hc
    · have h' := updateText_while_loading true mw mh
        { st with _resolution := r, dirty := true } h
      exact ⟨h'.2.2.1, h'.1⟩
    · have h' := updateText_while_loading true mw mh st h
      exact ⟨h'.2.2.1, h'.1⟩

/-- `updateText` never attaches an error handler to the decode image. -/
theorem updateText_onerror (rd : Bool) (mw mh : ℚ) (st : HTMLTextState) :
    (updateText rd mw mh st).image.onerrorSet = st.image.onerrorSet := by
  by_cases h1 : st.localStyleID ≠ st.style.styleID <;>
    by_cases h2 : st.dirty = true <;>
      cases rd <;>
        by_cases h3 : st._loading = true <;>
          simp_all [updateText]

/-- No synchronous call ever attaches an error handler to the decode image. -/
theorem applyOp_onerror (op : Op) (st : HTMLTextState) :
    (applyOp op st).image.onerrorSet = st.image.onerrorSet := by
  cases op with
  | update rd mw mh =>
    exact updateText_onerror rd mw mh st
  | text v =>
    simp only [applyOp, setText]
    split_ifs <;> rfl
  | resolution v =>
    simp only [applyOp, setResolution]
    split_ifs <;> rfl
  | styleSet s =>
    rfl
  | render r mw mh =>
    simp only [applyOp, renderStep]
    split_ifs
    · exact updateText_onerror true mw mh _
    · exact updateText_onerror true mw mh st

theorem run_loading (ops : List Op) (st : HTMLTextState)
    (h : st._loading = true) :
    (run ops st)._loading = true ∧ (run ops st).issued = st.issued := by
  induction ops generalizing st with
  | nil => exact ⟨h, rfl⟩
  | cons op ops ih =>
    have hstep := applyOp_loading op st h
    have hrest := ih (applyOp op st) hstep.1
    simp only [run, List.foldl_cons] at hrest ⊢
    exact ⟨hrest.1, hrest.2.trans hstep.2⟩

theorem run_onerror (ops : List Op) (st : HTMLTextState) :
    (run ops st).image.onerrorSet = st.image.onerrorSet := by
  induction ops generalizing st with
  | nil => rfl
  | cons op ops ih =>
    have hrest := ih (applyOp op st)
    simp only [run, List.foldl_cons] at hrest ⊢
    exact hrest.trans (applyOp_onerror op st)

/-- C9: no error handler is ever installed on the decode image, so if a
started decode never completes, `_loading` stays true through every further
sequence of synchronous calls, and none of them issues a new decode request:
all future updates are silently disabled. -/
theorem C9_failed_decode_disables_updates (st : HTMLTextState) (ops : List Op)
    (h : st._loading = true) :
    (run ops st)._loading = true
      ∧ (run ops st).issued = st.issued
      ∧ (run ops st).image.onerrorSet = st.image.onerrorSet :=
  ⟨(run_loading ops st h).1, (run_loading ops st h).2, run_onerror ops st⟩

/-- Witness for C9 at a concrete stuck state and call sequence. -/
theorem C9_witness :
    ({ mkState with _loading := true }._loading = true)
      ∧ ((run [.update true 5 7, .text (.str "zz"), .render 2 5 7]
            { mkState with _loading := true })._loading = true
        ∧ (run [.update true 5 7, .text (.str "zz"), .render 2 5 7]
            { mkState with _loading := true }).issued
          = { mkState with _loading := true }.issued
        ∧ (run [.update true 5 7, .text (.str "zz"), .render 2 5 7]
            { mkState with _loading := true }).image.onerrorSet
          = { mkState with _loading := true }.image.onerrorSet) :=
  ⟨rfl, C9_failed_decode_disables_updates { mkState with _loading := true }
    [.update true 5 7, .text (.str "zz"), .render 2 5 7] rfl⟩

/-- No synchronous call ever turns `_autoResolution` back on. -/
theorem applyOp_autoRes (op : Op) (st : HTMLTextState)
    (h : st._autoResolution = false) :
    (applyOp op st)._autoResolution = false := by
  cases op with
  | update rd mw mh =>
    exact (updateText_untouched rd mw mh st).2.1.trans h
  | text v =>
    simp only [applyOp, setText]
    split_ifs <;> exact h
  | resolution v =>
    simp only [applyOp, setResolution]
    split_ifs <;> rfl
  | styleSet s =>
    exact h
  | render r mw mh =>
    simp only [applyOp, renderStep]
    rw [if_neg (by simp [h])]
    exact (updateText_untouched true mw mh st).2.1.trans h

theorem run_autoRes (ops : List Op) (st : HTMLTextState)
    (h : st._autoResolution = false) :
    (run ops st)._autoResolution = false := by
  induction ops generalizing st with
  | nil => exact h
  | cons op ops ih =>
    have hrest := ih (applyOp op st) (applyOp_autoRes op st h)
    simp only [run, List.foldl_cons] at hrest ⊢
    exact hrest

/-- C10: every assignment to the resolution setter turns `_autoResolution`
off (even a no-op assignment of the current value, which changes nothing
else), and from then on no render pass ever overwrites the resolution from
the renderer. -/
theorem C10_manual_resolution_disables_auto (st : HTMLTextState) (v : ℚ) :
    (setResolution v st)._autoResolution = false
      ∧ (v = st._resolution →
          setResolution v st = { st with _autoResolution := false })
      ∧ (∀ ops, (run ops (setResolution v st))._autoResolution = false)
      ∧ (∀ ops r mw mh,
          (renderStep r mw mh (run ops (setResolution v st)))._resolution
            = (run ops (setResolution v st))._resolution) := by
  have hauto : (setResolution v st)._autoResolution = false := by
    simp only [setResolution]
    split_ifs <;> rfl
  refine ⟨hauto, ?_, ?_, ?_⟩
  · intro h
    simp only [setResolution]
    rw [if_pos (by rw [h])]
  · intro ops
    exact run_autoRes ops _ hauto
  · intro ops r mw mh
    have hra := run_autoRes ops _ hauto
    simp only [renderStep]
    rw [if_neg (by simp [hra])]
    exact (updateText_untouched true mw mh _).1

/-- Witness for C10 at a concrete state, value, call sequence and renderer
resolution. -/
theorem C10_witness :
    ((setResolution 1 mkState)._autoResolution = false
      ∧ setResolution 1 mkState = { mkState with _autoResolution := false })
      ∧ (renderStep 2 5 7 (run [.text (.str "zz")] (setResolution 1 mkState)))._resolution
        = (run [.text (.str "zz")] (setResolution 1 mkState))._resolution :=
  ⟨⟨(C10_manual_resolution_disables_auto mkState 1).1,
    (C10_manual_resolution_disables_auto mkState 1).2.1 rfl⟩,
   (C10_manual_resolution_disables_auto mkState 1).2.2.2 [.text (.str "zz")] 2 5 7⟩

/-- C1: after every completed rasterization pass of `updateText`, the canvas
pixel width equals `ceil((max(1, measuredWidth) + 2 * style.padding) *
resolution)` and analogously for the height, where the measured dimensions
are the DOM bounding-box dimensions (ceiled before use in the TS revision,
raw in the JS revision). -/
theorem C1_canvas_buffer_size (st : HTMLTextState) (rd : Bool) (mw mh : ℚ)
    (h : st.dirty = true ∨ st.localStyleID ≠ st.style.styleID ∨ rd = false) :
    (updateText rd mw mh st).canvasWidth
        = ((⌈((max 1 ⌈mw⌉ : ℤ) + st.style.padding * 2) * st._resolution⌉ : ℤ) : ℚ)
      ∧ (updateText rd mw mh st).canvasHeight
        = ((⌈((max 1 ⌈mh⌉ : ℤ) + st.style.padding * 2) * st._resolution⌉ : ℤ) : ℚ)
      ∧ (updateText_js rd mw mh st).canvasWidth
        = ((⌈(max 1 mw + st.style.padding * 2) * st._resolution⌉ : ℤ) : ℚ)
      ∧ (updateText_js rd mw mh st).canvasHeight
        = ((⌈(max 1 mh + st.style.padding * 2) * st._resolution⌉ : ℤ) : ℚ) :=
  ⟨(updateText_pass rd mw mh st h).1, (updateText_pass rd mw mh st h).2.1,
   (updateTextJs_pass rd mw mh st h).1, (updateTextJs_pass rd mw mh st h).2.1⟩

/-- Witness for C1 at the freshly constructed (dirty) state. -/
theorem C1_witness :
    (mkState.dirty = true ∨ mkState.localStyleID ≠ mkState.style.styleID
        ∨ true = false)
      ∧ ((updateText true 5 7 mkState).canvasWidth
          = ((⌈((max 1 ⌈(5:ℚ)⌉ : ℤ) + mkState.style.padding * 2)
                * mkState._resolution⌉ : ℤ) : ℚ)
        ∧ (updateText true 5 7 mkState).canvasHeight
          = ((⌈((max 1 ⌈(7:ℚ)⌉ : ℤ) + mkState.style.padding * 2)
                * mkState._resolution⌉ : ℤ) : ℚ)
        ∧ (updateText_js true 5 7 mkState).canvasWidth
          = ((⌈(max 1 (5:ℚ) + mkState.style.padding * 2)
                * mkState._resolution⌉ : ℤ) : ℚ)
        ∧ (updateText_js true 5 7 mkState).canvasHeight
          = ((⌈(max 1 (7:ℚ) + mkState.style.padding * 2)
                * mkState._resolution⌉ : ℤ) : ℚ)) :=
  ⟨Or.inl rfl, C1_canvas_buffer_size mkState true 5 7 (Or.inl rfl)⟩

/-- C2 (amended): after `updateTexture`, the texture frame and trim sizes are
the canvas pixel size divided by the resolution — exactly in the TS revision
and rounded up to an integer in the JS revision; the trim offset is minus the
effective padding (zero under `style.trim`), the origin rectangle is the
frame minus twice the effective padding, and the dirty flag is cleared. -/
theorem C2_texture_metadata (st : HTMLTextState) (tr : Option (ℚ × ℚ)) :
    ((updateTexture tr st).texture.frame.width
        = (updateTexture tr st).canvasWidth / st._resolution
      ∧ (updateTexture tr st).texture.trim.width
        = (updateTexture tr st).canvasWidth / st._resolution
      ∧ (updateTexture tr st).texture.frame.height
        = (updateTexture tr st).canvasHeight / st._resolution
      ∧ (updateTexture tr st).texture.trim.height
        = (updateTexture tr st).canvasHeight / st._resolution
      ∧ (updateTexture tr st).texture.trim.x
        = -(if st.style.trim then 0 else st.style.padding)
      ∧ (updateTexture tr st).texture.trim.y
        = -(if st.style.trim then 0 else st.style.padding)
      ∧ (updateTexture tr st).texture.orig.width
        = (updateTexture tr st).texture.frame.width
            - (if st.style.trim then 0 else st.style.padding) * 2
      ∧ (updateTexture tr st).texture.orig.height
        = (updateTexture tr st).texture.frame.height
            - (if st.style.trim then 0 else st.style.padding) * 2
      ∧ (updateTexture tr st).dirty = false)
    ∧ ((updateTexture_js tr st).texture.frame.width
        = ((⌈(updateTexture_js tr st).canvasWidth / st._resolution⌉ : ℤ) : ℚ)
      ∧ (updateTexture_js tr st).texture.trim.width
        = ((⌈(updateTexture_js tr st).canvasWidth / st._resolution⌉ : ℤ) : ℚ)
      ∧ (updateTexture_js tr st).texture.frame.height
        = ((⌈(updateTexture_js tr st).canvasHeight / st._resolution⌉ : ℤ) : ℚ)
      ∧ (updateTexture_js tr st).texture.trim.height
        = ((⌈(updateTexture_js tr st).canvasHeight / st._resolution⌉ : ℤ) : ℚ)
      ∧ (updateTexture_js tr st).texture.trim.x
        = -(if st.style.trim then 0 else st.style.padding)
      ∧ (updateTexture_js tr st).texture.trim.y
        = -(if st.style.trim then 0 else st.style.padding)
      ∧ (updateTexture_js tr st).texture.orig.width
        = (updateTexture_js tr st).texture.frame.width
            - (if st.style.trim then 0 else st.style.padding) * 2
      ∧ (updateTexture_js tr st).texture.orig.height
        = (updateTexture_js tr st).texture.frame.height
            - (if st.style.trim then 0 else st.style.padding) * 2
      ∧ (updateTexture_js tr st).dirty = false) := by
  rcases tr with _ | ⟨w, hgt⟩ <;>
    by_cases htrim : st.style.trim = true <;>
      simp [updateTexture, updateTexture_js, onTextureUpdate_eq, htrim]

/-- Counterexample to C2 as stated: in the JS revision, with a 5-px canvas at
resolution 2, the frame width is `ceil(5 / 2) = 3`, not `5 / 2`. -/
theorem C2_counterexample :
    (updateTexture_js none cexState2).texture.frame.width
      ≠ (updateTexture_js none cexState2).canvasWidth / cexState2._resolution := by
  have h5 : (⌈(5:ℚ) / 2⌉ : ℤ) = 3 := by
    rw [Int.ceil_eq_iff]
    norm_num
  simp only [cexState2, mkState_eq]
  simp [updateTexture_js, onTextureUpdate_eq, h5]
  norm_num

/-- C7 (amended): reading `width` (or `height`) after a dirty mutation
performs exactly one rasterization pass; the TS revision returns
`|scale.x| * canvas.width / resolution` (resp.
`|scale.y| * canvas.height / resolution`) while the JS revision returns
`|scale.x| * texture.orig.width` (resp. `|scale.y| * texture.orig.height`). -/
theorem C7_size_getters (st : HTMLTextState) (mw mh : ℚ)
    (h : st.dirty = true) :
    (widthGet mw mh st).1.passes = st.passes + 1
      ∧ (widthGet mw mh st).2
        = |st.scaleX| * (widthGet mw mh st).1.canvasWidth / st._resolution
      ∧ (heightGet mw mh st).1.passes = st.passes + 1
      ∧ (heightGet mw mh st).2
        = |st.scaleY| * (heightGet mw mh st).1.canvasHeight / st._resolution
      ∧ (widthGet_js mw mh st).1.passes = st.passes + 1
      ∧ (widthGet_js mw mh st).2
        = |(widthGet_js mw mh st).1.scaleX|
            * (widthGet_js mw mh st).1.texture.orig.width
      ∧ (heightGet_js mw mh st).1.passes = st.passes + 1
      ∧ (heightGet_js mw mh st).2
        = |(heightGet_js mw mh st).1.scaleY|
            * (heightGet_js mw mh st).1.texture.orig.height := by
  have hts := updateText_pass true mw mh st (Or.inl h)
  have hjs := updateTextJs_pass true mw mh st (Or.inl h)
  have hun := updateText_untouched true mw mh st
  refine ⟨hts.2.2.1, ?_, hts.2.2.1, ?_, hjs.2.2, rfl, hjs.2.2, rfl⟩
  · simp only [widthGet]
    rw [hun.2.2.1, hun.1]
  · simp only [heightGet]
    rw [hun.2.2.2, hun.1]

/-- Witness for C7 at the freshly constructed (dirty) state. -/
theorem C7_witness :
    (mkState.dirty = true)
      ∧ ((widthGet 5 7 mkState).1.passes = mkState.passes + 1
        ∧ (widthGet 5 7 mkState).2
          = |mkState.scaleX| * (widthGet 5 7 mkState).1.canvasWidth
              / mkState._resolution
        ∧ (heightGet 5 7 mkState).1.passes = mkState.passes + 1
        ∧ (heightGet 5 7 mkState).2
          = |mkState.scaleY| * (heightGet 5 7 mkState).1.canvasHeight
              / mkState._resolution
        ∧ (widthGet_js 5 7 mkState).1.passes = mkState.passes + 1
        ∧ (widthGet_js 5 7 mkState).2
          = |(widthGet_js 5 7 mkState).1.scaleX|
              * (widthGet_js 5 7 mkState).1.texture.orig.width
        ∧ (heightGet_js 5 7 mkState).1.passes = mkState.passes + 1
        ∧ (heightGet_js 5 7 mkState).2
          = |(heightGet_js 5 7 mkState).1.scaleY|
              * (heightGet_js 5 7 mkState).1.texture.orig.height) :=
  ⟨rfl, C7_size_getters mkState 5 7 rfl⟩

/-- Counterexample to C7 as stated: in the JS revision, at a dirty state with
`style.padding = 4`, resolution 1 and measured width 10, the getter returns
`|scale.x| * orig.width = 10`, while `|scale.x| * canvas.width / resolution`
is 18. -/
theorem C7_counterexample :
    (widthGet_js 10 10 cexState7).2
      ≠ |(widthGet_js 10 10 cexState7).1.scaleX|
          * (widthGet_js 10 10 cexState7).1.canvasWidth
          / (widthGet_js 10 10 cexState7).1._resolution := by
  have hceil : (⌈(max (1:ℚ) 10 + 4 * 2) * 1⌉ : ℤ) = 18 := by
    rw [max_eq_right (by norm_num : (1:ℚ) ≤ 10), Int.ceil_eq_iff]
    norm_num
  simp only [cexState7, mkState_eq]
  simp [widthGet_js, updateText_js, updateTexture_js, onTextureUpdate_eq,
    dataURL, hceil]

end HTMLTextModel
